import Mathlib

/-!
Verification development for `features/svdff.py` (kaggle-quora-question-pairs).

The script trains a shallow feed-forward network on SVD-projected text
features.  We shallowly embed the parts of the script that the properties
below speak about:

* the per-fold scoring loops of `train_ff` and of the test-inference part of
  `main` (model outputs and `scipy.special.logit` are abstracted as rational
  valued functions where only their data flow matters, and embedded over `ℝ`
  with the genuine `exp`/`log` where finiteness matters);
* the network construction of `train_ff` (the `Sequential`/`Dense` stack);
* the try-load-else-compute-and-persist caching pattern used for the
  vectorizer, the train feature matrix, the SVD decomposition and the
  per-fold model checkpoints;
* the trace of files `main` writes (config dump, cached artifacts, plots,
  the two prediction CSVs);
* the SVD projection and the symmetrization (`vsplit`/`hstack`) steps, as
  rational matrices.

Numeric model: the Python code computes in floating point; the embedding
uses exact arithmetic (`ℚ`, and `ℝ`/`EReal` for `sigmoid`/`logit`).
-/

namespace Svdff

/-! ## Per-record scoring loops -/

/-- Embeds the test-inference loop of `main` (svdff.py lines 251-257) at one
test record with projected features `u`: `test_df['svdff']` starts at `0`,
each fold model `f` adds `logit(f.predict_proba(u))`, and the accumulated sum
is finally divided by the number of folds.  `lgt` abstracts
`scipy.special.logit` and each element of `models` abstracts a fold model's
`predict_proba` (its sigmoid output). -/
def applyFoldModels {α : Type} (lgt : ℚ → ℚ) (models : List (α → ℚ)) (u : α) : ℚ :=
  (models.foldl (fun s f => s + lgt (f u)) 0) / (models.length : ℚ)

/-- Embeds numpy fancy assignment `predictions[valid_idx] = vals` (svdff.py
line 131), where the value written at position `j` depends only on `j`:
positions listed in `idx` are updated in order. -/
def scatterUpdate (preds : ℕ → ℚ) (idx : List ℕ) (vals : ℕ → ℚ) : ℕ → ℚ :=
  idx.foldl (fun p j => Function.update p j (vals j)) preds

/-- Embeds the cross-validation loop of `train_ff` (svdff.py lines 67-148) as
far as the returned `predictions` array is concerned: starting from
`np.zeros(len(y))`, each fold `F` (its validation index list `F.1` and the
fold model's `predict_proba` function `F.2`) scatter-assigns
`logit(F.2(X[j]))` at each validation position `j`.  `X` is the row map of
the (symmetrized) feature matrix. -/
def foldPredictions {α : Type} (lgt : ℚ → ℚ) (X : ℕ → α)
    (folds : List (List ℕ × (α → ℚ))) : ℕ → ℚ :=
  folds.foldl (fun preds F => scatterUpdate preds F.1 (fun j => lgt (F.2 (X j))))
    (fun _ => 0)

/-- The `predictions` array returned by `train_ff` (svdff.py line 148), as a
list of length `n = len(y)`. -/
def train_ff {α : Type} (lgt : ℚ → ℚ) (X : ℕ → α) (n : ℕ)
    (folds : List (List ℕ × (α → ℚ))) : List ℚ :=
  (List.range n).map (foldPredictions lgt X folds)

/-- Modelled from the spec: `skfold()` (from `lib.dataset`, not part of the
sources here) is a "cross-validation partitioning scheme producing held-out
predictions for every training record": every record index `r < n` lies in
some fold's validation list, and distinct folds have disjoint validation
lists. -/
def ValidPartition {α : Type} (n : ℕ) (folds : List (List ℕ × (α → ℚ))) : Prop :=
  (∀ r, r < n → ∃ F ∈ folds, r ∈ F.1) ∧
  List.Pairwise (fun A B => ∀ s, s ∈ A.1 → s ∉ B.1) folds

/-! ## Network construction -/

/-- One keras `Dense` layer: unit count and activation name. -/
structure DenseLayer where
  units : ℕ
  activation : String
  deriving DecidableEq, Repr

/-- Embeds the `Sequential` model built in `train_ff` (svdff.py lines
95-101): `Dense(layers[0], activation=activations[0])`, then for
`layer, layer_size in enumerate(layers[1:])` a
`Dense(layer_size, activation=activations[layer])`, and finally
`Dense(1, activation='sigmoid')`.  (Python raises on empty `layers`; the
`[]` case below is never relied upon.) -/
def buildNetwork (layers : List ℕ) (activations : List String) : List DenseLayer :=
  match layers with
  | [] => [⟨1, "sigmoid"⟩]
  | l0 :: rest =>
      (⟨l0, activations.getD 0 ""⟩ ::
        rest.enum.map (fun p => ⟨p.2, activations.getD p.1 ""⟩))
      ++ [⟨1, "sigmoid"⟩]

/-- The loss the network is compiled with (svdff.py line 103). -/
def ffLoss : String := "binary_crossentropy"

/-! ## Try-load-else-compute caching -/

/-- A cache slot on disk: its path and its current deserializable content
(`none` when the file is absent or unreadable). -/
structure CacheSlot (α : Type) where
  path : String
  content : Option α

/-- Result of one try-load-else-compute step: the artifact value used
afterwards, whether it was recomputed, and the state of the cache slot after
the step. -/
structure CacheOutcome (α : Type) where
  value : α
  recomputed : Bool
  slot : CacheSlot α

/-- What a load attempt yields: the slot content, further validated by `ok`
(for the SVD artifact, the `assert k == len(S)` sits inside the `try`
block, svdff.py line 195; for the other artifacts `ok` is constantly
`true`). -/
def loadResult {α : Type} (slot : CacheSlot α) (ok : α → Bool) : Option α :=
  match slot.content with
  | some v => if ok v then some v else none
  | none => none

/-- Embeds the try-load-else-compute-and-persist pattern (svdff.py lines
163-173, 175-186, 192-204 and 87-107): on a successful load the cached value
is used and nothing is written; on any load failure the artifact is
recomputed and persisted at the same path. -/
def loadOrCompute {α : Type} (slot : CacheSlot α) (ok : α → Bool)
    (compute : Unit → α) : CacheOutcome α :=
  match loadResult slot ok with
  | some v => ⟨v, false, slot⟩
  | none => ⟨compute (), true, ⟨slot.path, some (compute ())⟩⟩

/-- The SVD load validation `assert k == len(S)` (svdff.py line 195). -/
def svdOk {β : Type} (k : ℕ) (sv : List ℚ × β) : Bool :=
  sv.1.length == k

/-- The vectorizer caching step (svdff.py lines 163-173). -/
def vectorizerStep {α : Type} (slot : CacheSlot α) (compute : Unit → α) :
    CacheOutcome α :=
  loadOrCompute slot (fun _ => true) compute

/-- The train feature matrix caching step (svdff.py lines 175-186);
`load_feature_matrix` is modelled from the spec as a deserialization attempt
that yields nothing on failure. -/
def featuresStep {α : Type} (slot : CacheSlot α) (compute : Unit → α) :
    CacheOutcome α :=
  loadOrCompute slot (fun _ => true) compute

/-- The per-fold model checkpoint step (svdff.py lines 87-107). -/
def modelStep {α : Type} (slot : CacheSlot α) (compute : Unit → α) :
    CacheOutcome α :=
  loadOrCompute slot (fun _ => true) compute

/-- The SVD caching step (svdff.py lines 188-204): the artifact is the pair
of the singular value list `S` and the singular vector matrix, and a load
only succeeds when additionally `len(S) == k`. -/
def svdStep {β : Type} (k : ℕ) (slot : CacheSlot (List ℚ × β))
    (compute : Unit → List ℚ × β) : CacheOutcome (List ℚ × β) :=
  loadOrCompute slot (svdOk k) compute

/-! ## The file writes of one run of `main` -/

/-- One file written by `main` (or by `train_ff` on its behalf). -/
inductive FileWrite where
  | config : String → FileWrite
  | pickle : String → FileWrite
  | matrix : String → FileWrite
  | svdValues : String → FileWrite
  | svdVectors : String → FileWrite
  | spectrumPlot : String → FileWrite
  | modelDump : ℕ → String → FileWrite
  | rocPlot : ℕ → String → FileWrite
  | reliabilityPlot : ℕ → String → FileWrite
  | csv : String → List String → Bool → FileWrite
  deriving DecidableEq

/-- Whether a write is a `to_csv` call. -/
def isCsv (w : FileWrite) : Bool :=
  match w with
  | .csv _ _ _ => true
  | _ => false

/-- The `to_csv` writes in a trace. -/
def csvWrites (ws : List FileWrite) : List FileWrite :=
  ws.filter isCsv

/-- The ordered trace of files one run of `main` writes (svdff.py lines
151-263), parametrized by the dump directory `d`, by whether each cached
artifact loads successfully (`vecHit`, `fmHit`, `svdHit`, per-fold
`modelHit`) and by the number of cross-validation folds: the config dump;
the vectorizer, feature-matrix and SVD artifacts when their load failed
(the singular-value spectrum plot is rendered inside the SVD `except`
branch, line 204); each fold's model checkpoint when its load failed; each
fold's ROC and reliability plots; and the train and test prediction CSVs,
both with `index=False`. -/
def mainWrites (d : String) (vecHit fmHit svdHit : Bool) (modelHit : ℕ → Bool)
    (nFolds : ℕ) : List FileWrite :=
  [.config (d ++ "/application.conf")]
  ++ (if vecHit then [] else [.pickle (d ++ "/vectorizer.pkl")])
  ++ (if fmHit then [] else [.matrix (d ++ "/features_train.npz")])
  ++ (if svdHit then [] else
        [.svdValues (d ++ "/singular_values.txt"),
         .svdVectors (d ++ "/singular_vectors.npz"),
         .spectrumPlot (d ++ "/singular_values.png")])
  ++ ((List.range nFolds).flatMap (fun i =>
        if modelHit i then [] else
          [.modelDump i (d ++ "/model_" ++ toString i ++ ".pkl")]))
  ++ ((List.range nFolds).flatMap (fun i =>
        [.rocPlot i (d ++ "/quality/fold" ++ toString i ++ "/roc.png"),
         .reliabilityPlot i (d ++ "/quality/fold" ++ toString i ++ "/reliability.png")]))
  ++ [.csv (d ++ "/train.csv") ["id", "is_duplicate", "svdff"] false]
  ++ [.csv (d ++ "/test.csv") ["test_id", "svdff"] false]

/-! ## SVD projection and symmetrization -/

/-- Rational matrices indexed by `Fin`. -/
abbrev Mat (m n : ℕ) : Type := Fin m → Fin n → ℚ

/-- Matrix product. -/
def matMul {m n p : ℕ} (A : Mat m n) (B : Mat n p) : Mat m p :=
  fun i j => Finset.univ.sum (fun t => A i t * B t j)

/-- Matrix transpose. -/
def transposeM {m n : ℕ} (A : Mat m n) : Mat n m :=
  fun i j => A j i

/-- `np.diag(1. / S) * c` (svdff.py line 207, with `c = np.sqrt(X.shape[0])`):
the diagonal matrix of reciprocal singular values, every entry scaled by
`c`. -/
def diagScaled {k : ℕ} (S : Fin k → ℚ) (c : ℚ) : Mat k k :=
  fun i j => (if i = j then 1 / S i else 0) * c

/-- `U = X.dot(VT.transpose().dot(Sinv))` (svdff.py lines 208 and 245). -/
def svdProject {r d k : ℕ} (X : Mat r d) (VT : Mat k d) (Sinv : Mat k k) :
    Mat r k :=
  matMul X (matMul (transposeM VT) Sinv)

/-- The two projections `main` computes (svdff.py lines 206-208 and 244-245):
`Sinv` is formed once, at line 207, from the reciprocal singular values and
the square root of the row count of the TRAIN feature matrix (`X.shape[0]`
before `X` is reassigned at line 242), and the very same `Sinv` and `VT` are
applied to the train matrix and later to the test matrix.  `sqrtQ`
abstracts `np.sqrt` on row counts. -/
def mainProjections {rtr rte d k : ℕ} (sqrtQ : ℕ → ℚ) (Xtr : Mat rtr d)
    (Xte : Mat rte d) (VT : Mat k d) (S : Fin k → ℚ) : Mat rtr k × Mat rte k :=
  let Sinv := diagScaled S (sqrtQ rtr)
  (svdProject Xtr VT Sinv, svdProject Xte VT Sinv)

/-- Top half of `np.vsplit(U, 2)` (svdff.py lines 213 and 248). -/
def vsplitTop {m k : ℕ} (U : Mat (m + m) k) : Mat m k :=
  fun i j => U (Fin.castAdd m i) j

/-- Bottom half of `np.vsplit(U, 2)` (svdff.py lines 213 and 248). -/
def vsplitBot {m k : ℕ} (U : Mat (m + m) k) : Mat m k :=
  fun i j => U (Fin.natAdd m i) j

/-- `np.hstack([A, B])` for two equally sized blocks (svdff.py lines 214 and
249). -/
def hstack2 {m k : ℕ} (A B : Mat m k) : Mat m (k + k) :=
  fun i j =>
    if h : (j : ℕ) < k then A i ⟨j, h⟩
    else B i ⟨(j : ℕ) - k, by omega⟩

/-- The symmetrization step
`U = np.hstack([(Uq1 + Uq2) / 2.0, (Uq1 - Uq2) / 2.0])` applied identically
to the train matrix (svdff.py lines 212-214) and to the test matrix
(lines 247-249). -/
def symmetrize {m k : ℕ} (U : Mat (m + m) k) : Mat m (k + k) :=
  hstack2 (fun i j => (vsplitTop U i j + vsplitBot U i j) / 2)
    (fun i j => (vsplitTop U i j - vsplitBot U i j) / 2)

/-- Left half of the symmetrized feature block. -/
def blockL {m k : ℕ} (V : Mat m (k + k)) : Mat m k :=
  fun i j => V i (Fin.castAdd k j)

/-- Right half of the symmetrized feature block. -/
def blockR {m k : ℕ} (V : Mat m (k + k)) : Mat m k :=
  fun i j => V i (Fin.natAdd k j)

/-- Exchanging the two vertically stacked per-question halves of a feature
matrix. -/
def vswap {m k : ℕ} (U : Mat (m + m) k) : Mat (m + m) k :=
  fun p j =>
    if h : (p : ℕ) < m then U ⟨m + (p : ℕ), by omega⟩ j
    else U ⟨(p : ℕ) - m, by omega⟩ j

/-- The symmetrized train and test feature matrices of `main`: the same
`symmetrize` map applied to both projections. -/
def mainSymFeatures {ntr nte d k : ℕ} (sqrtQ : ℕ → ℚ)
    (Xtr : Mat (ntr + ntr) d) (Xte : Mat (nte + nte) d) (VT : Mat k d)
    (S : Fin k → ℚ) : Mat ntr (k + k) × Mat nte (k + k) :=
  (symmetrize (mainProjections sqrtQ Xtr Xte VT S).1,
   symmetrize (mainProjections sqrtQ Xtr Xte VT S).2)

/-! ## Score columns and finiteness -/

/-- The `svdff` column of the test CSV: the test-inference loop applied to
every row of the symmetrized test feature matrix (svdff.py lines 251-257). -/
def testScoreColumn {α : Type} (lgt : ℚ → ℚ) (models : List (α → ℚ))
    (rows : List α) : List ℚ :=
  rows.map (applyFoldModels lgt models)

/-- The network's output activation (svdff.py line 101):
`sigmoid(x) = 1 / (1 + exp(-x))`, over the reals. -/
noncomputable def sigmoid (x : ℝ) : ℝ :=
  1 / (1 + Real.exp (-x))

/-- `scipy.special.logit` on `[0, 1]`, valued in the extended reals:
`logit(0) = -inf`, `logit(1) = +inf`, and `log(p / (1 - p))` strictly
inside. -/
noncomputable def logit (p : ℝ) : EReal :=
  if p ≤ 0 then ⊥ else if 1 ≤ p then ⊤ else ((Real.log (p / (1 - p)) : ℝ) : EReal)

/-! ## Helper lemmas -/

/-- Accumulating `a + g x₁ + g x₂ + ...` by a left fold is adding the sum of
the mapped list. -/
theorem foldl_add_map {α : Type} (g : α → ℚ) (l : List α) (a : ℚ) :
    l.foldl (fun s f => s + g f) a = a + (l.map g).sum := by
  induction l generalizing a with
  | nil => simp
  | cons x t ih => simp [ih, add_assoc]

/-- Pointwise description of numpy scatter assignment: a position gets the
new value exactly when it is listed. -/
theorem scatterUpdate_apply (preds : ℕ → ℚ) (idx : List ℕ) (vals : ℕ → ℚ)
    (r : ℕ) :
    scatterUpdate preds idx vals r = if r ∈ idx then vals r else preds r := by
  induction idx generalizing preds with
  | nil => simp [scatterUpdate]
  | cons j t ih =>
      unfold scatterUpdate at ih ⊢
      rw [List.foldl_cons, ih]
      by_cases hrt : r ∈ t
      · simp [hrt, List.mem_cons]
      · by_cases hrj : r = j
        · subst hrj
          simp [hrt]
        · simp [hrt, hrj, Function.update_noteq hrj, List.mem_cons]

/-- Folds whose validation lists avoid `r` leave position `r` untouched. -/
theorem foldPredictions_not_mem {α : Type} (lgt : ℚ → ℚ) (X : ℕ → α)
    (folds : List (List ℕ × (α → ℚ))) :
    ∀ (preds : ℕ → ℚ) (r : ℕ), (∀ F ∈ folds, r ∉ F.1) →
      folds.foldl (fun preds F => scatterUpdate preds F.1 (fun j => lgt (F.2 (X j)))) preds r
        = preds r := by
  induction folds with
  | nil => intro preds r _; rfl
  | cons G t ih =>
      intro preds r h
      rw [List.foldl_cons, ih _ r (fun F hF => h F (List.mem_cons_of_mem _ hF))]
      rw [scatterUpdate_apply]
      simp [h G (List.mem_cons_self G t)]

/-- With pairwise disjoint validation lists, position `r` ends up holding the
value written by the fold containing `r`. -/
theorem foldPredictions_mem {α : Type} (lgt : ℚ → ℚ) (X : ℕ → α)
    (folds : List (List ℕ × (α → ℚ))) :
    ∀ (preds : ℕ → ℚ) (F : List ℕ × (α → ℚ)) (r : ℕ), F ∈ folds → r ∈ F.1 →
      List.Pairwise (fun A B => ∀ s, s ∈ A.1 → s ∉ B.1) folds →
      folds.foldl (fun preds F => scatterUpdate preds F.1 (fun j => lgt (F.2 (X j)))) preds r
        = lgt (F.2 (X r)) := by
  induction folds with
  | nil => intro _ _ _ h; exact absurd h (List.not_mem_nil _)
  | cons G t ih =>
      intro preds F r hF hr hp
      rw [List.pairwise_cons] at hp
      rw [List.foldl_cons]
      rcases List.mem_cons.mp hF with hFG | hFt
      · subst hFG
        rw [foldPredictions_not_mem lgt X t _ r (fun B hB => hp.1 B hB r hr)]
        rw [scatterUpdate_apply]
        simp [hr]
      · exact ih _ F r hFt hr hp.2

/-- Reading inside the range of a mapped `List.range`. -/
theorem getD_range_map (f : ℕ → ℚ) (n r : ℕ) (h : r < n) :
    ((List.range n).map f).getD r 0 = f r := by
  simp [List.getD, List.getElem?_map, List.getElem?_range, h]

/-! ## C1 and C2 -/

/-- C1: For every test record, the score written to the test CSV equals the
arithmetic mean, over all cross-validation folds, of the logit of that fold
model's sigmoid output on the record's projected features: the
accumulate-then-divide loop of `main` computes exactly the mean of the
per-fold logits (fold outputs are averaged in logit space). -/
theorem test_score_is_logit_mean {α : Type} (lgt : ℚ → ℚ)
    (models : List (α → ℚ)) (u : α) :
    applyFoldModels lgt models u
      = (models.map (fun f => lgt (f u))).sum / (models.length : ℚ) := by
  unfold applyFoldModels
  rw [foldl_add_map (fun f => lgt (f u)) models 0, zero_add]

/-- C2: `train_ff` returns a predictions array of length `len(y)`; under the
partition produced by `skfold()` (modelled from the spec as
`ValidPartition`), every training record lies in the validation list of
exactly one fold, and its entry in the returned array is the logit of that
fold model's sigmoid output on the record, i.e. every training record
receives exactly one held-out prediction. -/
theorem train_ff_heldout_predictions {α : Type} (lgt : ℚ → ℚ) (X : ℕ → α)
    (n : ℕ) (folds : List (List ℕ × (α → ℚ)))
    (hpart : ValidPartition n folds) :
    (train_ff lgt X n folds).length = n ∧
    (∀ r, r < n → ∃ F ∈ folds, r ∈ F.1) ∧
    (∀ r F G, F ∈ folds → G ∈ folds → r ∈ F.1 → r ∈ G.1 → F = G) ∧
    (∀ r F, r < n → F ∈ folds → r ∈ F.1 →
        (train_ff lgt X n folds).getD r 0 = lgt (F.2 (X r))) := by
  obtain ⟨hcover, hdisj⟩ := hpart
  have hsym : Symmetric (fun (A B : List ℕ × (α → ℚ)) => ∀ s, s ∈ A.1 → s ∉ B.1) := by
    intro A B h s hsB hsA
    exact h s hsA hsB
  refine ⟨by simp [train_ff], hcover, ?_, ?_⟩
  · intro r F G hF hG hrF hrG
    by_contra hne
    exact List.Pairwise.forall hsym hdisj hF hG hne r hrF hrG
  · intro r F hrn hF hrF
    unfold train_ff
    rw [getD_range_map _ n r hrn]
    unfold foldPredictions
    exact foldPredictions_mem lgt X folds _ F r hF hrF hdisj

/-- Witness for C2 at a concrete two-fold split of two records. -/
theorem train_ff_heldout_predictions_witness :
    ValidPartition 2 ([([0], fun _ => (1:ℚ)/2), ([1], fun _ => (1:ℚ)/3)] : List (List ℕ × (ℚ → ℚ))) ∧
    (train_ff (fun q => q) (fun _ => (0:ℚ)) 2
        ([([0], fun _ => (1:ℚ)/2), ([1], fun _ => (1:ℚ)/3)] : List (List ℕ × (ℚ → ℚ)))).getD 1 0
      = (1:ℚ)/3 := by
  have hpart : ValidPartition 2 ([([0], fun _ => (1:ℚ)/2), ([1], fun _ => (1:ℚ)/3)] : List (List ℕ × (ℚ → ℚ))) := by
    constructor
    · intro r hr
      interval_cases r
      · exact ⟨([0], fun _ => (1:ℚ)/2), by simp, by simp⟩
      · exact ⟨([1], fun _ => (1:ℚ)/3), by simp, by simp⟩
    · constructor
      · intro B hB s hs
        simp only [List.mem_singleton] at hB hs
        subst hB
        subst hs
        simp
      · exact List.pairwise_singleton _ _
  refine ⟨hpart, ?_⟩
  have h := (train_ff_heldout_predictions (fun q => q) (fun _ => (0:ℚ)) 2
      ([([0], fun _ => (1:ℚ)/2), ([1], fun _ => (1:ℚ)/3)] : List (List ℕ × (ℚ → ℚ))) hpart).2.2.2
  simpa using h 1 ([1], fun _ => (1:ℚ)/3) (by omega)
    (List.mem_cons.mpr (Or.inr (List.mem_cons_self _ _))) (by simp)

/-- A successful load returns exactly the slot content, and it passed the
validation. -/
theorem loadResult_eq_some {α : Type} (slot : CacheSlot α) (ok : α → Bool)
    (v : α) (h : loadResult slot ok = some v) :
    slot.content = some v ∧ ok v = true := by
  unfold loadResult at h
  cases hc : slot.content with
  | none => rw [hc] at h; exact absurd h (by simp)
  | some w =>
      rw [hc] at h
      by_cases hw : ok w
      · simp only [hw, if_true] at h
        cases h
        exact ⟨rfl, hw⟩
      · simp [hw] at h

/-- C4: for each cached artifact (vectorizer, train feature matrix, SVD
decomposition, per-fold model) the step is the same try-load-else-compute
pattern: when the load fails the artifact is recomputed and persisted at the
same path, and when the load succeeds the cached value is used and the
compute-and-persist step is skipped (the slot is untouched).  In all cases
the slot afterwards holds the value used. -/
theorem cache_try_load_else_compute {α β : Type} (slot : CacheSlot α)
    (ok : α → Bool) (compute : Unit → α) (svslot : CacheSlot (List ℚ × β))
    (svcompute : Unit → List ℚ × β) (k : ℕ) :
    ((loadOrCompute slot ok compute).recomputed = (loadResult slot ok).isNone) ∧
    ((loadOrCompute slot ok compute).slot.path = slot.path) ∧
    ((loadOrCompute slot ok compute).slot.content
        = some (loadOrCompute slot ok compute).value) ∧
    (loadResult slot ok = none →
        (loadOrCompute slot ok compute).value = compute ()) ∧
    (∀ v, loadResult slot ok = some v →
        (loadOrCompute slot ok compute).value = v ∧
        (loadOrCompute slot ok compute).slot = slot) ∧
    vectorizerStep slot compute = loadOrCompute slot (fun _ => true) compute ∧
    featuresStep slot compute = loadOrCompute slot (fun _ => true) compute ∧
    modelStep slot compute = loadOrCompute slot (fun _ => true) compute ∧
    svdStep k svslot svcompute = loadOrCompute svslot (svdOk k) svcompute := by
  cases h : loadResult slot ok with
  | none =>
      refine ⟨?_, ?_, ?_, ?_, ?_, rfl, rfl, rfl, rfl⟩ <;>
        simp [loadOrCompute, h]
  | some v =>
      obtain ⟨hc, _⟩ := loadResult_eq_some slot ok v h
      refine ⟨?_, ?_, ?_, ?_, ?_, rfl, rfl, rfl, rfl⟩ <;>
        simp [loadOrCompute, h, hc]

/-- Witness for C4: an empty vectorizer slot is recomputed, a filled one is
reused untouched. -/
theorem cache_try_load_else_compute_witness :
    (loadOrCompute (⟨"vectorizer.pkl", none⟩ : CacheSlot ℚ) (fun _ => true)
        (fun _ => 7)).value = 7 ∧
    (loadOrCompute (⟨"vectorizer.pkl", some 5⟩ : CacheSlot ℚ) (fun _ => true)
        (fun _ => 7)).slot = ⟨"vectorizer.pkl", some 5⟩ :=
  ⟨(cache_try_load_else_compute ⟨"vectorizer.pkl", none⟩ (fun _ => true)
      (fun _ => 7) (⟨"svd", none⟩ : CacheSlot (List ℚ × ℚ))
      (fun _ => ([1], 0)) 1).2.2.2.1 rfl,
   ((cache_try_load_else_compute ⟨"vectorizer.pkl", some 5⟩ (fun _ => true)
      (fun _ => 7) (⟨"svd", none⟩ : CacheSlot (List ℚ × ℚ))
      (fun _ => ([1], 0)) 1).2.2.2.2.1 5 rfl).2⟩

/-- C7: the singular-value list used to form `Sinv = diag(1/S)` has length
`k` on both paths: a cache hit passed the `assert k == len(S)`, and a fresh
`compute_svd` (modelled from the spec: a rank-`k` truncated SVD returns `k`
singular values, hypothesis `hc`) returns `k` values. -/
theorem svd_rank_matches_k {β : Type} (k : ℕ) (slot : CacheSlot (List ℚ × β))
    (compute : Unit → List ℚ × β) (hc : (compute ()).1.length = k) :
    ((svdStep k slot compute).value).1.length = k := by
  cases h : loadResult slot (svdOk k) with
  | none => simp [svdStep, loadOrCompute, h, hc]
  | some v =>
      have hok := (loadResult_eq_some slot (svdOk k) v h).2
      have hv : v.1.length = k := by simpa [svdOk] using hok
      simp [svdStep, loadOrCompute, h, hv]

/-- Witness for C7 at `k = 2`, an empty cache and a two-value compute. -/
theorem svd_rank_matches_k_witness :
    ((svdStep 2 (⟨"singular_values.txt", none⟩ : CacheSlot (List ℚ × ℚ))
        (fun _ => ([1, 2], 0))).value).1.length = 2 :=
  svd_rank_matches_k 2 ⟨"singular_values.txt", none⟩ (fun _ => ([1, 2], 0)) rfl

/-! ## The CSV outputs -/

/-- Filtering for CSV writes distributes over concatenation. -/
theorem csvWrites_append (a b : List FileWrite) :
    csvWrites (a ++ b) = csvWrites a ++ csvWrites b :=
  List.filter_append a b

/-- A flat-mapped trace with no CSV chunk contributes no CSV write. -/
theorem csvWrites_flatMap_nil (l : List ℕ) (f : ℕ → List FileWrite)
    (h : ∀ i, csvWrites (f i) = []) : csvWrites (l.flatMap f) = [] := by
  induction l with
  | nil => rfl
  | cons a t ih => rw [List.flatMap_cons, csvWrites_append, h a, ih, List.nil_append]

/-- C5: on every run, `main` performs exactly two `to_csv` writes: the train
CSV with columns id, is_duplicate, svdff and the test CSV with columns
test_id, svdff, both with `index=False` — regardless of which cached
artifacts loaded and of the number of folds. -/
theorem main_writes_exactly_two_csvs (d : String) (vH fH sH : Bool)
    (mH : ℕ → Bool) (n : ℕ) :
    csvWrites (mainWrites d vH fH sH mH n)
      = [.csv (d ++ "/train.csv") ["id", "is_duplicate", "svdff"] false,
         .csv (d ++ "/test.csv") ["test_id", "svdff"] false] := by
  have hm : csvWrites ((List.range n).flatMap (fun i =>
      if mH i then [] else
        [FileWrite.modelDump i (d ++ "/model_" ++ toString i ++ ".pkl")])) = [] :=
    csvWrites_flatMap_nil _ _
      (fun i => by cases hmi : mH i <;> simp [hmi, csvWrites, isCsv])
  have hp : csvWrites ((List.range n).flatMap (fun i =>
      [FileWrite.rocPlot i (d ++ "/quality/fold" ++ toString i ++ "/roc.png"),
       FileWrite.reliabilityPlot i
         (d ++ "/quality/fold" ++ toString i ++ "/reliability.png")])) = [] :=
    csvWrites_flatMap_nil _ _ (fun i => by simp [csvWrites, isCsv])
  unfold mainWrites
  simp only [csvWrites_append, hm, hp]
  cases vH <;> cases fH <;> cases sH <;> simp [csvWrites, isCsv]

/-! ## C3: the network architecture -/

/-- C3: evaluation at the failing input `layers = [4, 8]`,
`activations = ["relu", "tanh"]`.  The loop
`for layer, layer_size in enumerate(layers[1:])` indexes
`activations[layer]` by the position inside `layers[1:]`, so hidden layer 1
is built with activation `activations[0] = "relu"` instead of
`activations[1] = "tanh"` (which is never used), while the unit counts, the
fixed sigmoid output layer and the binary cross-entropy loss are as
specified. -/
theorem buildNetwork_activation_offbyone :
    buildNetwork [4, 8] ["relu", "tanh"]
      = [⟨4, "relu"⟩, ⟨8, "relu"⟩, ⟨1, "sigmoid"⟩] ∧
    (buildNetwork [4, 8] ["relu", "tanh"]).getD 1 ⟨0, ""⟩ ≠ ⟨8, "tanh"⟩ ∧
    ffLoss = "binary_crossentropy" :=
  ⟨rfl, by decide, rfl⟩

/-! ## C6: output row counts and score finiteness -/

/-- C6: the train score column has one entry per training record (length
`len(y)`) and the test score column has one entry per test record; and over
the real-number semantics the score `logit(sigmoid(x))` of a network output
is always finite, since `sigmoid` maps into the open interval `(0, 1)`. -/
theorem output_rows_and_finite_scores {α : Type} (lgt : ℚ → ℚ) (X : ℕ → α)
    (n : ℕ) (folds : List (List ℕ × (α → ℚ))) (models : List (α → ℚ))
    (rows : List α) :
    (train_ff lgt X n folds).length = n ∧
    (testScoreColumn lgt models rows).length = rows.length ∧
    (∀ x : ℝ, logit (sigmoid x) ≠ (⊥ : EReal) ∧ logit (sigmoid x) ≠ (⊤ : EReal)) := by
  refine ⟨by simp [train_ff], by simp [testScoreColumn], ?_⟩
  intro x
  have hpos : 0 < 1 + Real.exp (-x) := by positivity
  have h0 : 0 < sigmoid x := by unfold sigmoid; positivity
  have h1 : sigmoid x < 1 := by
    unfold sigmoid
    rw [div_lt_one hpos]
    have h := Real.exp_pos (-x)
    linarith
  unfold logit
  rw [if_neg (not_le.mpr h0), if_neg (not_le.mpr h1)]
  exact ⟨EReal.coe_ne_bot _, EReal.coe_ne_top _⟩

/-! ## C8: which plots are rendered -/

/-- Membership in the model-checkpoint chunk of the write trace. -/
theorem mem_model_chunk_iff (x : FileWrite) (d : String) (mH : ℕ → Bool)
    (n : ℕ) :
    (x ∈ (List.range n).flatMap (fun i =>
        if mH i then [] else
          [FileWrite.modelDump i (d ++ "/model_" ++ toString i ++ ".pkl")]))
      ↔ ∃ i, i < n ∧ mH i = false ∧
          x = FileWrite.modelDump i (d ++ "/model_" ++ toString i ++ ".pkl") := by
  simp only [List.mem_flatMap, List.mem_range]
  constructor
  · rintro ⟨i, hi, hx⟩
    cases hmi : mH i with
    | true => rw [hmi] at hx; simp at hx
    | false =>
        rw [hmi] at hx
        simp at hx
        exact ⟨i, hi, hmi, hx⟩
  · rintro ⟨i, hi, hmi, rfl⟩
    exact ⟨i, hi, by simp [hmi]⟩

/-- C8 counterexample: on a run where the cached SVD loads successfully, the
singular-value spectrum plot is NOT rendered — `plot_singular_values` is
called only inside the `except` branch (svdff.py line 204), so the claim
"on every run the program renders the singular-value spectrum plot" fails. -/
theorem spectrum_plot_skipped_on_svd_cache_hit :
    FileWrite.spectrumPlot ("d" ++ "/singular_values.png")
      ∉ mainWrites "d" true true true (fun _ => true) 1 := by
  decide

/-- C8 (amended): on every run, for every cross-validation fold, the ROC and
reliability plots are rendered under the dump directory; the singular-value
spectrum plot is rendered exactly on the runs where the cached SVD fails to
load (and is recomputed). -/
theorem fold_plots_every_run_spectrum_on_miss (d : String) (vH fH sH : Bool)
    (mH : ℕ → Bool) (n : ℕ) :
    (FileWrite.spectrumPlot (d ++ "/singular_values.png")
        ∈ mainWrites d vH fH sH mH n ↔ sH = false) ∧
    (∀ i, i < n →
      FileWrite.rocPlot i (d ++ "/quality/fold" ++ toString i ++ "/roc.png")
        ∈ mainWrites d vH fH sH mH n ∧
      FileWrite.reliabilityPlot i
          (d ++ "/quality/fold" ++ toString i ++ "/reliability.png")
        ∈ mainWrites d vH fH sH mH n) := by
  constructor
  · cases sH <;>
      cases vH <;>
        cases fH <;>
          simp [mainWrites, List.mem_append, mem_model_chunk_iff,
            List.mem_flatMap, List.mem_range]
  · intro i hi
    constructor
    · unfold mainWrites
      simp only [List.mem_append, List.mem_flatMap, List.mem_range]
      refine Or.inl (Or.inl (Or.inr ⟨i, hi, ?_⟩))
      exact List.mem_cons_self _ _
    · unfold mainWrites
      simp only [List.mem_append, List.mem_flatMap, List.mem_range]
      refine Or.inl (Or.inl (Or.inr ⟨i, hi, ?_⟩))
      exact List.mem_cons_of_mem _ (List.mem_cons_self _ _)

/-- Witness for C8 (amended) at one fold, all caches hitting. -/
theorem fold_plots_every_run_spectrum_on_miss_witness :
    FileWrite.rocPlot 0 ("" ++ "/quality/fold" ++ toString 0 ++ "/roc.png")
      ∈ mainWrites "" true true true (fun _ => true) 1 :=
  ((fold_plots_every_run_spectrum_on_miss "" true true true (fun _ => true) 1).2
    0 (by omega)).1

/-! ## C9 and C10: symmetrization and projection reuse -/

/-- The left block of a horizontal stack is its first argument. -/
theorem blockL_hstack2 {m k : ℕ} (A B : Mat m k) (i : Fin m) (j : Fin k) :
    blockL (hstack2 A B) i j = A i j := by
  unfold blockL hstack2
  split
  next h => exact congrArg (A i) (Fin.ext rfl)
  next h => exact absurd j.isLt h

/-- The right block of a horizontal stack is its second argument. -/
theorem blockR_hstack2 {m k : ℕ} (A B : Mat m k) (i : Fin m) (j : Fin k) :
    blockR (hstack2 A B) i j = B i j := by
  unfold blockR hstack2
  split
  next h =>
    rw [Fin.coe_natAdd] at h
    exact absurd h (by omega)
  next h =>
    refine congrArg (B i) (Fin.ext ?_)
    show ((Fin.natAdd k j : Fin (k + k)) : ℕ) - k = (j : ℕ)
    rw [Fin.coe_natAdd]
    omega

/-- The top half of the swapped stack is the original bottom half. -/
theorem vsplitTop_vswap {m k : ℕ} (U : Mat (m + m) k) (i : Fin m) (j : Fin k) :
    vsplitTop (vswap U) i j = vsplitBot U i j := by
  unfold vsplitTop vsplitBot vswap
  split
  next h =>
    exact congrFun
      (congrArg U (Fin.ext (by simp [Fin.coe_castAdd, Fin.coe_natAdd, Nat.add_comm]))) j
  next h => exact absurd i.isLt h

/-- The bottom half of the swapped stack is the original top half. -/
theorem vsplitBot_vswap {m k : ℕ} (U : Mat (m + m) k) (i : Fin m) (j : Fin k) :
    vsplitBot (vswap U) i j = vsplitTop U i j := by
  unfold vsplitTop vsplitBot vswap
  split
  next h =>
    rw [Fin.coe_natAdd] at h
    exact absurd h (by omega)
  next h =>
    refine congrFun (congrArg U (Fin.ext ?_)) j
    show ((Fin.natAdd m i : Fin (m + m)) : ℕ) - m = ((Fin.castAdd m i : Fin (m + m)) : ℕ)
    rw [Fin.coe_natAdd, Fin.coe_castAdd]
    omega

/-- C9: the symmetrization maps the stacked per-question halves
`(Uq1, Uq2)` to `hstack[(Uq1+Uq2)/2, (Uq1-Uq2)/2]`; it is invertible (the
halves are recovered as the sum and the difference of the two output
blocks), exchanging `Uq1` with `Uq2` fixes the first output block and
negates the second, and `main` applies the identical `symmetrize` map to the
train and the test projections. -/
theorem symmetrize_invertible_and_equivariant {ntr nte m d k : ℕ}
    (sqrtQ : ℕ → ℚ) (Xtr : Mat (ntr + ntr) d) (Xte : Mat (nte + nte) d)
    (VT : Mat k d) (S : Fin k → ℚ) (U : Mat (m + m) k) :
    (∀ i j, blockL (symmetrize U) i j + blockR (symmetrize U) i j
        = vsplitTop U i j) ∧
    (∀ i j, blockL (symmetrize U) i j - blockR (symmetrize U) i j
        = vsplitBot U i j) ∧
    (∀ i j, blockL (symmetrize (vswap U)) i j = blockL (symmetrize U) i j) ∧
    (∀ i j, blockR (symmetrize (vswap U)) i j = - blockR (symmetrize U) i j) ∧
    mainSymFeatures sqrtQ Xtr Xte VT S
      = (symmetrize (mainProjections sqrtQ Xtr Xte VT S).1,
         symmetrize (mainProjections sqrtQ Xtr Xte VT S).2) := by
  refine ⟨fun i j => ?_, fun i j => ?_, fun i j => ?_, fun i j => ?_, rfl⟩ <;>
    simp only [symmetrize, blockL_hstack2, blockR_hstack2, vsplitTop_vswap,
      vsplitBot_vswap] <;>
    ring

/-- C10: the test-set projection reuses exactly the training-derived linear
map: one matrix `M = VTᵀ · diag(1/S)·sqrt(n)`, with `n` the row count of
the TRAIN feature matrix (`rtr`, captured at svdff.py line 207 before `X`
is reassigned to the test matrix at line 242), is applied to both the train
and the test feature matrices. -/
theorem test_projection_reuses_train_map {rtr rte d k : ℕ} (sqrtQ : ℕ → ℚ)
    (Xtr : Mat rtr d) (Xte : Mat rte d) (VT : Mat k d) (S : Fin k → ℚ) :
    ∃ M : Mat d k,
      M = matMul (transposeM VT) (diagScaled S (sqrtQ rtr)) ∧
      (mainProjections sqrtQ Xtr Xte VT S).1 = matMul Xtr M ∧
      (mainProjections sqrtQ Xtr Xte VT S).2 = matMul Xte M :=
  ⟨matMul (transposeM VT) (diagScaled S (sqrtQ rtr)), rfl, rfl, rfl⟩

end Svdff
